import Mathlib

/-!
Shallow embedding of `src/main.py`, a FastAPI service exposing
`POST /calculate-overlap`: it converts a list of per-participant local
availability windows (each tagged with an IANA timezone name) to UTC and
intersects them.

Modelling choices:

* A datetime value is an `Int` (minutes since some epoch).  Naive local
  datetimes and UTC instants share this carrier; what differs is how the
  code maps one to the other.
* A timezone (`ZoneInfo` object) is modelled by the UTC offset (in minutes)
  it assigns to a naive local datetime value: `Zone := Int → Int`.
  Localizing a naive value `t` in zone `z` yields the UTC instant `t - z t`.
* The host's timezone database (`zoneinfo`) is `TZDatabase := String → Option Zone`;
  `none` models `ZoneInfoNotFoundError`.
* Python semantics of line 55/56, `slot.start_local.astimezone(tz).astimezone(ZoneInfo("UTC"))`:
  when `self` is naive, `datetime.astimezone` presumes `self` represents time
  in the *system* (host) local timezone; the subsequent conversions to `tz`
  and to UTC preserve the instant.  Hence the UTC instant produced by the
  code is `t - host t`, where `host` is the host's configured local zone —
  the slot's own zone `tz` affects only the `ZoneInfoNotFoundError` check.
  The embedding therefore takes the host zone `host : Zone` as an explicit
  ambient parameter.
* `raise HTTPException(status_code, detail)` becomes `Except.error ⟨status_code, detail⟩`.
-/

/-- A civil timezone: the UTC offset (in minutes) it assigns to a naive local
datetime value. -/
abbrev Zone := Int → Int

/-- The host's timezone database: resolves an IANA identifier string to a
zone, or `none` for `ZoneInfoNotFoundError`. -/
abbrev TZDatabase := String → Option Zone

/-- Model of `AvailabilityInput` (src/main.py lines 28-31): one participant's
window, a timezone identifier plus naive local start/end datetimes. -/
structure AvailabilityInput where
  timezone : String
  start_local : Int
  end_local : Int
  deriving DecidableEq

/-- Model of `OverlapResponse` (src/main.py lines 34-37): the response body. -/
structure OverlapResponse where
  is_overlap : Bool
  overlap_start_utc : Option Int
  overlap_end_utc : Option Int
  deriving DecidableEq

/-- An `HTTPException` raised by the endpoint: status code and detail text. -/
structure HTTPError where
  status : Nat
  detail : String
  deriving DecidableEq

/-- The UTC instant the code actually computes for a naive local datetime `t`
(src/main.py lines 55-56): `t.astimezone(tz).astimezone(ZoneInfo("UTC"))`.
A naive datetime is presumed by Python to be in the host's local zone, and
`astimezone` preserves the instant, so the result is `t - host t`; the
slot's own zone does not enter the value. -/
def naiveToUTC (host : Zone) (t : Int) : Int := t - host t

/-- The converted `(start_utc, end_utc)` pair appended to `converted_slots`
for one slot (src/main.py line 57). -/
def convertEntry (host : Zone) (slot : AvailabilityInput) : Int × Int :=
  (naiveToUTC host slot.start_local, naiveToUTC host slot.end_local)

/-- The conversion loop (src/main.py lines 49-59): resolve each slot's
timezone, converting in order; the first unresolvable identifier raises
`HTTPException(400, "Invalid timezone: {slot.timezone}")`. -/
def convertSlots (db : TZDatabase) (host : Zone) :
    List AvailabilityInput → Except HTTPError (List (Int × Int))
  | [] => .ok []
  | slot :: rest =>
    match db slot.timezone with
    | none => .error ⟨400, "Invalid timezone: " ++ slot.timezone⟩
    | some _tz =>
      match convertSlots db host rest with
      | .error e => .error e
      | .ok tail => .ok (convertEntry host slot :: tail)

/-- The core overlap logic (src/main.py lines 61-83): initialize the window
from the first converted slot, narrow it with `max`/`min` over the rest, and
report an overlap iff `overlap_start < overlap_end`.  The `[]` case cannot be
reached from `find_overlap` (the caller already enforced at least two
entries, and conversion preserves length). -/
def reduceSlots : List (Int × Int) → OverlapResponse
  | [] => ⟨false, none, none⟩
  | (first_slot_start, first_slot_end) :: rest =>
    let overlap_start := rest.foldl (fun acc c => max acc c.1) first_slot_start
    let overlap_end := rest.foldl (fun acc c => min acc c.2) first_slot_end
    if overlap_start < overlap_end then
      ⟨true, some overlap_start, some overlap_end⟩
    else
      ⟨false, none, none⟩

/-- Model of `find_overlap` (src/main.py lines 41-83), the
`POST /calculate-overlap` handler: reject fewer than two entries with a 400,
convert every slot (failing on the first bad timezone), then reduce. -/
def find_overlap (db : TZDatabase) (host : Zone)
    (availabilities : List AvailabilityInput) : Except HTTPError OverlapResponse :=
  if availabilities.length < 2 then
    .error ⟨400, "At least two availability slots are required."⟩
  else
    match convertSlots db host availabilities with
    | .error e => .error e
    | .ok converted_slots => .ok (reduceSlots converted_slots)

/-- Refinement comparison for the Timezone Normalizer contract.  This
definition follows the SPEC's words, not the code: "given a timezone
identifier string and a naive local instant, produce the corresponding UTC
instant", interpreting the naive instant "literally as wall-clock time in
the given zone".  Attaching zone `z` to the naive value `t` and converting
to UTC yields `t - z t`. -/
def specTimezoneNormalizer (z : Zone) (t : Int) : Int := t - z t

/-! ### Concrete zones and databases used by witnesses and counterexamples -/

/-- A fixed-offset UTC zone (offset 0 everywhere). -/
def utcZone : Zone := fun _ => 0

/-- A fixed-offset model of Asia/Tokyo: UTC+09:00, i.e. +540 minutes. -/
def tokyoZone : Zone := fun _ => 540

/-- A host zone at a fixed offset of UTC+01:00 (+60 minutes). -/
def plus60Zone : Zone := fun _ => 60

/-- A small timezone database resolving "UTC" and "Asia/Tokyo" only. -/
def demoDB : TZDatabase := fun s =>
  if s = "UTC" then some utcZone
  else if s = "Asia/Tokyo" then some tokyoZone
  else none

/-- The left fold of `max` over a list, seeded from a first value: the shape
of the reducer's `overlap_start` accumulation. -/
def foldMax (h : Int) (t : List Int) : Int := t.foldl max h

/-- The left fold of `min` over a list, seeded from a first value: the shape
of the reducer's `overlap_end` accumulation. -/
def foldMin (h : Int) (t : List Int) : Int := t.foldl min h

instance {ε α : Type} [DecidableEq ε] [DecidableEq α] : DecidableEq (Except ε α) := fun x y =>
  match x, y with
  | .error a, .error b =>
    if h : a = b then .isTrue (by rw [h]) else .isFalse (fun hc => h (by injection hc))
  | .error _, .ok _ => .isFalse (fun hc => Except.noConfusion hc)
  | .ok _, .error _ => .isFalse (fun hc => Except.noConfusion hc)
  | .ok a, .ok b =>
    if h : a = b then .isTrue (by rw [h]) else .isFalse (fun hc => h (by injection hc))

/-! ### Facts about the max/min folds of the reducer -/

lemma le_foldMax (h : Int) (t : List Int) : h ≤ foldMax h t := by
  induction t generalizing h with
  | nil => exact le_refl h
  | cons a t ih => exact le_trans (le_max_left h a) (ih (max h a))

lemma foldMin_le (h : Int) (t : List Int) : foldMin h t ≤ h := by
  induction t generalizing h with
  | nil => exact le_refl h
  | cons a t ih => exact le_trans (ih (min h a)) (min_le_left h a)

lemma mem_le_foldMax {a : Int} (h : Int) {t : List Int} (ha : a ∈ t) : a ≤ foldMax h t := by
  induction t generalizing h with
  | nil => cases ha
  | cons b t ih =>
    rcases List.mem_cons.mp ha with rfl | hm
    · exact le_trans (le_max_right h a) (le_foldMax (max h a) t)
    · exact ih (max h b) hm

lemma foldMin_le_mem {a : Int} (h : Int) {t : List Int} (ha : a ∈ t) : foldMin h t ≤ a := by
  induction t generalizing h with
  | nil => cases ha
  | cons b t ih =>
    rcases List.mem_cons.mp ha with rfl | hm
    · exact le_trans (foldMin_le (min h a) t) (min_le_right h a)
    · exact ih (min h b) hm

lemma foldMax_max (h a : Int) (t : List Int) : foldMax (max h a) t = max a (foldMax h t) := by
  induction t generalizing h with
  | nil => exact max_comm h a
  | cons c t ih =>
    show foldMax (max (max h a) c) t = max a (foldMax (max h c) t)
    rw [max_assoc h a c, max_comm a c, ← max_assoc h c a]
    exact ih (max h c)

lemma foldMin_min (h a : Int) (t : List Int) : foldMin (min h a) t = min a (foldMin h t) := by
  induction t generalizing h with
  | nil => exact min_comm h a
  | cons c t ih =>
    show foldMin (min (min h a) c) t = min a (foldMin (min h c) t)
    rw [min_right_comm h a c]
    exact ih (min h c)

lemma foldMax_perm {t₁ t₂ : List Int} (hp : t₁.Perm t₂) (h : Int) :
    foldMax h t₁ = foldMax h t₂ := by
  induction hp generalizing h with
  | nil => rfl
  | cons a _ ih => exact ih (max h a)
  | swap a b l =>
    show foldMax (max (max h b) a) l = foldMax (max (max h a) b) l
    rw [max_assoc h b a, max_comm b a, ← max_assoc h a b]
  | trans _ _ ih₁ ih₂ => exact (ih₁ h).trans (ih₂ h)

lemma foldMin_perm {t₁ t₂ : List Int} (hp : t₁.Perm t₂) (h : Int) :
    foldMin h t₁ = foldMin h t₂ := by
  induction hp generalizing h with
  | nil => rfl
  | cons a _ ih => exact ih (min h a)
  | swap a b l =>
    show foldMin (min (min h b) a) l = foldMin (min (min h a) b) l
    rw [min_right_comm h b a]
  | trans _ _ ih₁ ih₂ => exact (ih₁ h).trans (ih₂ h)

/-- Head-seeded `max` folds agree on permuted nonempty lists. -/
lemma foldMax_perm_cons {h₁ h₂ : Int} {t₁ t₂ : List Int}
    (hp : (h₁ :: t₁).Perm (h₂ :: t₂)) : foldMax h₁ t₁ = foldMax h₂ t₂ := by
  have e₁ : foldMax h₁ t₁ = foldMax h₁ (h₁ :: t₁) := by
    show foldMax h₁ t₁ = foldMax (max h₁ h₁) t₁
    rw [max_self h₁]
  have e₂ : foldMax h₁ (h₂ :: t₂) = max h₁ (foldMax h₂ t₂) := by
    show foldMax (max h₁ h₂) t₂ = max h₁ (foldMax h₂ t₂)
    rw [max_comm h₁ h₂]
    exact foldMax_max h₂ h₁ t₂
  have hmem : h₁ ∈ h₂ :: t₂ := hp.mem_iff.mp (List.mem_cons_self h₁ t₁)
  have hle : h₁ ≤ foldMax h₂ t₂ := by
    rcases List.mem_cons.mp hmem with rfl | hm
    · exact le_foldMax h₁ t₂
    · exact mem_le_foldMax h₂ hm
  calc foldMax h₁ t₁ = foldMax h₁ (h₁ :: t₁) := e₁
    _ = foldMax h₁ (h₂ :: t₂) := foldMax_perm hp h₁
    _ = max h₁ (foldMax h₂ t₂) := e₂
    _ = foldMax h₂ t₂ := max_eq_right hle

/-- Head-seeded `min` folds agree on permuted nonempty lists. -/
lemma foldMin_perm_cons {h₁ h₂ : Int} {t₁ t₂ : List Int}
    (hp : (h₁ :: t₁).Perm (h₂ :: t₂)) : foldMin h₁ t₁ = foldMin h₂ t₂ := by
  have e₁ : foldMin h₁ t₁ = foldMin h₁ (h₁ :: t₁) := by
    show foldMin h₁ t₁ = foldMin (min h₁ h₁) t₁
    rw [min_self h₁]
  have e₂ : foldMin h₁ (h₂ :: t₂) = min h₁ (foldMin h₂ t₂) := by
    show foldMin (min h₁ h₂) t₂ = min h₁ (foldMin h₂ t₂)
    rw [min_comm h₁ h₂]
    exact foldMin_min h₂ h₁ t₂
  have hmem : h₁ ∈ h₂ :: t₂ := hp.mem_iff.mp (List.mem_cons_self h₁ t₁)
  have hle : foldMin h₂ t₂ ≤ h₁ := by
    rcases List.mem_cons.mp hmem with rfl | hm
    · exact foldMin_le h₁ t₂
    · exact foldMin_le_mem h₂ hm
  calc foldMin h₁ t₁ = foldMin h₁ (h₁ :: t₁) := e₁
    _ = foldMin h₁ (h₂ :: t₂) := foldMin_perm hp h₁
    _ = min h₁ (foldMin h₂ t₂) := e₂
    _ = foldMin h₂ t₂ := min_eq_right hle

/-! ### Facts about the conversion loop and the endpoint -/

lemma convertSlots_ok_of_resolvable (db : TZDatabase) (host : Zone) :
    ∀ av : List AvailabilityInput, (∀ s ∈ av, (db s.timezone).isSome = true) →
      convertSlots db host av = .ok (av.map (convertEntry host))
  | [], _ => rfl
  | slot :: rest, hres => by
    obtain ⟨tz, htz⟩ := Option.isSome_iff_exists.mp (hres slot (List.mem_cons_self slot rest))
    have ih := convertSlots_ok_of_resolvable db host rest
      (fun s hs => hres s (List.mem_cons_of_mem slot hs))
    simp [convertSlots, htz, ih]

lemma convertSlots_ok_map {db : TZDatabase} {host : Zone} :
    ∀ {av : List AvailabilityInput} {cs : List (Int × Int)},
      convertSlots db host av = .ok cs → cs = av.map (convertEntry host)
  | [], cs, h => by
    simpa [convertSlots] using h.symm
  | slot :: rest, cs, h => by
    revert h
    unfold convertSlots
    cases htz : db slot.timezone with
    | none => intro h; cases h
    | some tz =>
      cases hrec : convertSlots db host rest with
      | error e => intro h; cases h
      | ok tail =>
        intro h
        have htail := convertSlots_ok_map hrec
        cases h
        simp [htail]

lemma convertSlots_first_error (db : TZDatabase) (host : Zone)
    (pre : List AvailabilityInput) (bad : AvailabilityInput) (post : List AvailabilityInput)
    (hpre : ∀ s ∈ pre, (db s.timezone).isSome = true) (hbad : db bad.timezone = none) :
    convertSlots db host (pre ++ bad :: post) =
      .error ⟨400, "Invalid timezone: " ++ bad.timezone⟩ := by
  induction pre with
  | nil => simp [convertSlots, hbad]
  | cons slot pre ih =>
    obtain ⟨tz, htz⟩ := Option.isSome_iff_exists.mp (hpre slot (List.mem_cons_self slot pre))
    have ih' := ih (fun s hs => hpre s (List.mem_cons_of_mem slot hs))
    simp [convertSlots, htz, ih']

lemma find_overlap_eq_ok {db : TZDatabase} {host : Zone} {av : List AvailabilityInput}
    {cs : List (Int × Int)} (h2 : 2 ≤ av.length) (hc : convertSlots db host av = .ok cs) :
    find_overlap db host av = .ok (reduceSlots cs) := by
  unfold find_overlap
  rw [if_neg (Nat.not_lt.mpr h2), hc]

lemma find_overlap_ok {db : TZDatabase} {host : Zone} {av : List AvailabilityInput}
    {resp : OverlapResponse} (h : find_overlap db host av = .ok resp) :
    2 ≤ av.length ∧ ∃ cs, convertSlots db host av = .ok cs ∧ resp = reduceSlots cs := by
  unfold find_overlap at h
  by_cases hlen : av.length < 2
  · rw [if_pos hlen] at h
    cases h
  · rw [if_neg hlen] at h
    refine ⟨Nat.not_lt.mp hlen, ?_⟩
    cases hcs : convertSlots db host av with
    | error e => rw [hcs] at h; cases h
    | ok cs => rw [hcs] at h; exact ⟨cs, rfl, (Except.ok.inj h).symm⟩

lemma reduceSlots_cons (fs fe : Int) (rest : List (Int × Int)) :
    reduceSlots ((fs, fe) :: rest) =
      if rest.foldl (fun acc c => max acc c.1) fs < rest.foldl (fun acc c => min acc c.2) fe
      then ⟨true, some (rest.foldl (fun acc c => max acc c.1) fs),
            some (rest.foldl (fun acc c => min acc c.2) fe)⟩
      else ⟨false, none, none⟩ := rfl

lemma foldPair_max (fs : Int) (rest : List (Int × Int)) :
    rest.foldl (fun acc c => max acc c.1) fs = foldMax fs (rest.map Prod.fst) := by
  rw [foldMax, List.foldl_map]

lemma foldPair_min (fe : Int) (rest : List (Int × Int)) :
    rest.foldl (fun acc c => min acc c.2) fe = foldMin fe (rest.map Prod.snd) := by
  rw [foldMin, List.foldl_map]

/-- The reducer is invariant under permutation of the converted slots. -/
lemma reduceSlots_perm {cs₁ cs₂ : List (Int × Int)} (hp : cs₁.Perm cs₂) :
    reduceSlots cs₁ = reduceSlots cs₂ := by
  cases cs₁ with
  | nil =>
    have : cs₂ = [] := hp.symm.eq_nil
    rw [this]
  | cons c₁ t₁ =>
    cases cs₂ with
    | nil => exact absurd hp.eq_nil (List.cons_ne_nil c₁ t₁)
    | cons c₂ t₂ =>
      obtain ⟨f₁, e₁⟩ := c₁
      obtain ⟨f₂, e₂⟩ := c₂
      rw [reduceSlots_cons, reduceSlots_cons,
        foldPair_max, foldPair_min, foldPair_max, foldPair_min]
      have hmax : foldMax f₁ (t₁.map Prod.fst) = foldMax f₂ (t₂.map Prod.fst) :=
        foldMax_perm_cons (by simpa using hp.map Prod.fst)
      have hmin : foldMin e₁ (t₁.map Prod.snd) = foldMin e₂ (t₂.map Prod.snd) :=
        foldMin_perm_cons (by simpa using hp.map Prod.snd)
      rw [hmax, hmin]

/-! ### The claims -/

/-- Claim C1: the spec demands that a naive `start_local`/`end_local` be
interpreted literally as wall-clock time in the entry's own zone and then
converted to UTC.  The code instead calls `astimezone` on the naive value,
which presumes the host's local zone; the entry's zone never affects the
produced instant.  Evaluation at the failing input: a request of two
"Asia/Tokyo" entries `[00:00, 01:00)` on a host configured to UTC is
answered with UTC bounds `[00:00, 01:00)`, whereas interpreting the naive
instants in Asia/Tokyo (UTC+09:00) yields `[-09:00, -08:00)` relative to
the epoch, i.e. `-540` and `-480` minutes. -/
theorem C1_normalizer_ignores_entry_zone :
    find_overlap demoDB utcZone [⟨"Asia/Tokyo", 0, 60⟩, ⟨"Asia/Tokyo", 0, 60⟩]
      = .ok ⟨true, some 0, some 60⟩
    ∧ specTimezoneNormalizer tokyoZone 0 = -540
    ∧ specTimezoneNormalizer tokyoZone 60 = -480
    ∧ naiveToUTC utcZone 0 ≠ specTimezoneNormalizer tokyoZone 0 := by
  refine ⟨rfl, rfl, rfl, ?_⟩
  decide

/-- Claim C2: the spec demands that, with the timezone database fixed, the
response be independent of ambient host state such as the host's configured
local timezone.  Evaluation at the failing input: the identical request
(two "Asia/Tokyo" entries `[00:00, 01:00)`) against the same database
yields different responses on a host configured to UTC and on a host
configured to a UTC+01:00 local zone. -/
theorem C2_response_depends_on_host_zone :
    find_overlap demoDB utcZone [⟨"Asia/Tokyo", 0, 60⟩, ⟨"Asia/Tokyo", 0, 60⟩]
      = .ok ⟨true, some 0, some 60⟩
    ∧ find_overlap demoDB plus60Zone [⟨"Asia/Tokyo", 0, 60⟩, ⟨"Asia/Tokyo", 0, 60⟩]
      = .ok ⟨true, some (-60), some 0⟩
    ∧ find_overlap demoDB utcZone [⟨"Asia/Tokyo", 0, 60⟩, ⟨"Asia/Tokyo", 0, 60⟩]
      ≠ find_overlap demoDB plus60Zone [⟨"Asia/Tokyo", 0, 60⟩, ⟨"Asia/Tokyo", 0, 60⟩] := by
  refine ⟨rfl, rfl, ?_⟩
  decide

/-- Claim C3: when every entry converts successfully (and there are at least
two), the response has `is_overlap = true` iff the folded `overlap_start` is
strictly below the folded `overlap_end`; when the flag is false both bounds
are omitted, so zero-width and boundary-touching intersections report no
overlap. -/
theorem C3_overlap_iff_strict (db : TZDatabase) (host : Zone)
    (av : List AvailabilityInput) (fs fe : Int) (rest : List (Int × Int))
    (h2 : 2 ≤ av.length)
    (hc : convertSlots db host av = .ok ((fs, fe) :: rest)) :
    ∃ resp, find_overlap db host av = .ok resp ∧
      (resp.is_overlap = true ↔
        rest.foldl (fun acc c => max acc c.1) fs < rest.foldl (fun acc c => min acc c.2) fe) ∧
      (resp.is_overlap = false →
        resp.overlap_start_utc = none ∧ resp.overlap_end_utc = none) := by
  refine ⟨reduceSlots ((fs, fe) :: rest), find_overlap_eq_ok h2 hc, ?_⟩
  rw [reduceSlots_cons]
  by_cases hlt : rest.foldl (fun acc c => max acc c.1) fs
      < rest.foldl (fun acc c => min acc c.2) fe
  · rw [if_pos hlt]
    exact ⟨⟨fun _ => hlt, fun _ => rfl⟩, fun hf => Bool.noConfusion hf⟩
  · rw [if_neg hlt]
    exact ⟨⟨fun hf => Bool.noConfusion hf, fun h => absurd h hlt⟩, fun _ => ⟨rfl, rfl⟩⟩

/-- Witness for C3 at the spec's boundary-touching example: entries
`[09:00, 10:00)` and `[10:00, 11:00)` UTC give `is_overlap = false` with
both bounds omitted (600 = 600 is not a strict overlap). -/
theorem C3_witness :
    2 ≤ ([⟨"UTC", 540, 600⟩, ⟨"UTC", 600, 660⟩] : List AvailabilityInput).length
    ∧ convertSlots demoDB utcZone [⟨"UTC", 540, 600⟩, ⟨"UTC", 600, 660⟩]
        = .ok [(540, 600), (600, 660)]
    ∧ ∃ resp, find_overlap demoDB utcZone [⟨"UTC", 540, 600⟩, ⟨"UTC", 600, 660⟩]
          = .ok resp ∧
        (resp.is_overlap = true ↔
          ([(600, 660)] : List (Int × Int)).foldl (fun acc c => max acc c.1) 540
            < ([(600, 660)] : List (Int × Int)).foldl (fun acc c => min acc c.2) 600) ∧
        (resp.is_overlap = false →
          resp.overlap_start_utc = none ∧ resp.overlap_end_utc = none) :=
  ⟨by decide, by decide,
    C3_overlap_iff_strict demoDB utcZone _ 540 600 [(600, 660)] (by decide) (by decide)⟩

/-- Claim C4: on the successful path the reducer initializes the window from
the first converted interval and folds `max` over the remaining starts and
`min` over the remaining ends; every interval participates unconditionally —
there is no hypothesis excluding malformed intervals with `start ≥ end`, and
the request still succeeds with a well-typed response. -/
theorem C4_reducer_maxmin_fold (db : TZDatabase) (host : Zone)
    (av : List AvailabilityInput) (fs fe : Int) (rest : List (Int × Int))
    (h2 : 2 ≤ av.length)
    (hc : convertSlots db host av = .ok ((fs, fe) :: rest)) :
    find_overlap db host av =
      .ok (if rest.foldl (fun acc c => max acc c.1) fs
              < rest.foldl (fun acc c => min acc c.2) fe
           then ⟨true, some (rest.foldl (fun acc c => max acc c.1) fs),
                 some (rest.foldl (fun acc c => min acc c.2) fe)⟩
           else ⟨false, none, none⟩) := by
  rw [find_overlap_eq_ok h2 hc, reduceSlots_cons]

/-- Witness for C4 with a malformed second interval (`start 700 ≥ end 650`):
it still participates in the fold (the window becomes `[700, 600)`, hence no
overlap) and the request is answered, not rejected. -/
theorem C4_witness :
    2 ≤ ([⟨"UTC", 540, 600⟩, ⟨"UTC", 700, 650⟩] : List AvailabilityInput).length
    ∧ convertSlots demoDB utcZone [⟨"UTC", 540, 600⟩, ⟨"UTC", 700, 650⟩]
        = .ok [(540, 600), (700, 650)]
    ∧ find_overlap demoDB utcZone [⟨"UTC", 540, 600⟩, ⟨"UTC", 700, 650⟩]
        = .ok ⟨false, none, none⟩ :=
  ⟨by decide, by decide,
    C4_reducer_maxmin_fold demoDB utcZone _ 540 600 [(700, 650)] (by decide) (by decide)⟩

/-- Claim C5: the conversion loop fails on the FIRST entry whose timezone
does not resolve, with a 400 whose detail names exactly that identifier;
entries before it must all resolve, entries after it are irrelevant (valid
or not), and the result is an error, so no overlap is computed and no
partial result or aggregation is returned. -/
theorem C5_first_invalid_timezone (db : TZDatabase) (host : Zone)
    (pre post : List AvailabilityInput) (bad : AvailabilityInput)
    (h2 : 2 ≤ (pre ++ bad :: post).length)
    (hpre : ∀ s ∈ pre, (db s.timezone).isSome = true)
    (hbad : db bad.timezone = none) :
    find_overlap db host (pre ++ bad :: post) =
      .error ⟨400, "Invalid timezone: " ++ bad.timezone⟩ := by
  unfold find_overlap
  rw [if_neg (Nat.not_lt.mpr h2), convertSlots_first_error db host pre bad post hpre hbad]

/-- Witness for C5: a batch with a valid entry, then "Mars/Phobos", then
another valid entry fails with a 400 naming "Mars/Phobos". -/
theorem C5_witness :
    2 ≤ ([⟨"UTC", 0, 60⟩, ⟨"Mars/Phobos", 0, 60⟩, ⟨"UTC", 0, 60⟩] :
        List AvailabilityInput).length
    ∧ (∀ s ∈ ([⟨"UTC", 0, 60⟩] : List AvailabilityInput), (demoDB s.timezone).isSome = true)
    ∧ demoDB "Mars/Phobos" = none
    ∧ find_overlap demoDB utcZone [⟨"UTC", 0, 60⟩, ⟨"Mars/Phobos", 0, 60⟩, ⟨"UTC", 0, 60⟩]
        = .error ⟨400, "Invalid timezone: Mars/Phobos"⟩ :=
  ⟨by decide, by decide, by rfl,
    C5_first_invalid_timezone demoDB utcZone [⟨"UTC", 0, 60⟩] [⟨"UTC", 0, 60⟩]
      ⟨"Mars/Phobos", 0, 60⟩ (by decide) (by decide) (by rfl)⟩

/-- Claim C6: any request with fewer than two entries (empty or singleton,
whatever the entry contents) is rejected with a 400 carrying the
explanatory text, for EVERY database and host zone — so no timezone
conversion or overlap computation can influence the outcome. -/
theorem C6_insufficient_input (db : TZDatabase) (host : Zone)
    (av : List AvailabilityInput) (h : av.length < 2) :
    find_overlap db host av = .error ⟨400, "At least two availability slots are required."⟩ := by
  unfold find_overlap
  rw [if_pos h]

/-- Witness for C6: a single-entry request is rejected even though its
timezone ("Mars/Phobos") would not resolve — the length check comes first
and no conversion happens. -/
theorem C6_witness :
    ([⟨"Mars/Phobos", 0, 0⟩] : List AvailabilityInput).length < 2
    ∧ find_overlap demoDB utcZone [⟨"Mars/Phobos", 0, 0⟩]
        = .error ⟨400, "At least two availability slots are required."⟩ :=
  ⟨by decide, C6_insufficient_input demoDB utcZone [⟨"Mars/Phobos", 0, 0⟩] (by decide)⟩

/-- Claim C7: for any valid input (at least two entries, every timezone
resolvable), the whole response of `find_overlap` is invariant under any
permutation of the entry list. -/
theorem C7_permutation_invariant (db : TZDatabase) (host : Zone)
    (av₁ av₂ : List AvailabilityInput) (hp : av₁.Perm av₂)
    (h2 : 2 ≤ av₁.length) (hres : ∀ s ∈ av₁, (db s.timezone).isSome = true) :
    find_overlap db host av₁ = find_overlap db host av₂ := by
  have hres₂ : ∀ s ∈ av₂, (db s.timezone).isSome = true :=
    fun s hs => hres s (hp.mem_iff.mpr hs)
  have h2' : 2 ≤ av₂.length := hp.length_eq ▸ h2
  have hc₁ := convertSlots_ok_of_resolvable db host av₁ hres
  have hc₂ := convertSlots_ok_of_resolvable db host av₂ hres₂
  rw [find_overlap_eq_ok h2 hc₁, find_overlap_eq_ok h2' hc₂]
  exact congrArg Except.ok (reduceSlots_perm (hp.map (convertEntry host)))

/-- Witness for C7: swapping a UTC entry and an Asia/Tokyo entry leaves the
response unchanged. -/
theorem C7_witness :
    ([⟨"UTC", 540, 660⟩, ⟨"Asia/Tokyo", 600, 720⟩] : List AvailabilityInput).Perm
        [⟨"Asia/Tokyo", 600, 720⟩, ⟨"UTC", 540, 660⟩]
    ∧ 2 ≤ ([⟨"UTC", 540, 660⟩, ⟨"Asia/Tokyo", 600, 720⟩] : List AvailabilityInput).length
    ∧ (∀ s ∈ ([⟨"UTC", 540, 660⟩, ⟨"Asia/Tokyo", 600, 720⟩] : List AvailabilityInput),
        (demoDB s.timezone).isSome = true)
    ∧ find_overlap demoDB utcZone [⟨"UTC", 540, 660⟩, ⟨"Asia/Tokyo", 600, 720⟩]
        = find_overlap demoDB utcZone [⟨"Asia/Tokyo", 600, 720⟩, ⟨"UTC", 540, 660⟩] :=
  ⟨by decide, by decide, by decide,
    C7_permutation_invariant demoDB utcZone
      [⟨"UTC", 540, 660⟩, ⟨"Asia/Tokyo", 600, 720⟩]
      [⟨"Asia/Tokyo", 600, 720⟩, ⟨"UTC", 540, 660⟩]
      (by decide) (by decide) (by decide)⟩

/-- Counterexample to Claim C8 as stated: two IDENTICAL entries whose window
is degenerate (`start_local = end_local`) do NOT produce `is_overlap = true`
— the code's strict `overlap_start < overlap_end` check reports no overlap.
So "two identical entries always overlap fully" fails at this input. -/
theorem C8_counterexample :
    ¬ ∃ resp, find_overlap demoDB utcZone [⟨"UTC", 0, 0⟩, ⟨"UTC", 0, 0⟩] = .ok resp
        ∧ resp.is_overlap = true := by
  rintro ⟨resp, hr, hb⟩
  have hv : find_overlap demoDB utcZone [⟨"UTC", 0, 0⟩, ⟨"UTC", 0, 0⟩]
      = .ok ⟨false, none, none⟩ := by rfl
  have heq : (⟨false, none, none⟩ : OverlapResponse) = resp :=
    Except.ok.inj (hv.symm.trans hr)
  rw [← heq] at hb
  exact Bool.noConfusion hb

/-- Claim C8 as amended: for two identical entries whose CONVERTED window is
non-degenerate (converted start strictly before converted end), the response
is `is_overlap = true` with bounds equal to the converted start and end of
the shared entry. -/
theorem C8_identical_entries_overlap (db : TZDatabase) (host : Zone)
    (e : AvailabilityInput) (tz : Zone) (htz : db e.timezone = some tz)
    (hlt : naiveToUTC host e.start_local < naiveToUTC host e.end_local) :
    find_overlap db host [e, e] =
      .ok ⟨true, some (naiveToUTC host e.start_local), some (naiveToUTC host e.end_local)⟩ := by
  have hres : ∀ s ∈ ([e, e] : List AvailabilityInput), (db s.timezone).isSome = true := by
    intro s hs
    rcases List.mem_cons.mp hs with rfl | hs'
    · rw [htz]; rfl
    · rcases List.mem_cons.mp hs' with rfl | hs''
      · rw [htz]; rfl
      · cases hs''
  have hc := convertSlots_ok_of_resolvable db host [e, e] hres
  rw [find_overlap_eq_ok (by simp) hc]
  show Except.ok (reduceSlots [convertEntry host e, convertEntry host e]) = _
  rw [show convertEntry host e
      = (naiveToUTC host e.start_local, naiveToUTC host e.end_local) from rfl]
  rw [reduceSlots_cons]
  simp only [List.foldl_cons, List.foldl_nil, max_self, min_self]
  rw [if_pos hlt]

/-- Witness for the amended C8: two identical `[09:00, 11:00)` UTC entries
overlap fully with bounds `[09:00, 11:00)`. -/
theorem C8_witness :
    demoDB "UTC" = some utcZone
    ∧ naiveToUTC utcZone 540 < naiveToUTC utcZone 660
    ∧ find_overlap demoDB utcZone [⟨"UTC", 540, 660⟩, ⟨"UTC", 540, 660⟩]
        = .ok ⟨true, some (naiveToUTC utcZone 540), some (naiveToUTC utcZone 660)⟩ :=
  ⟨by rfl, by decide,
    C8_identical_entries_overlap demoDB utcZone ⟨"UTC", 540, 660⟩ utcZone (by rfl) (by decide)⟩

/-- Claim C9: in every successful response the optional bounds are present
iff the flag is true: `is_overlap = true` forces both bounds to be `some`,
and `is_overlap = false` forces both to be `none`. -/
theorem C9_bounds_present_iff_flag (db : TZDatabase) (host : Zone)
    (av : List AvailabilityInput) (resp : OverlapResponse)
    (h : find_overlap db host av = .ok resp) :
    (resp.is_overlap = true →
      (∃ s, resp.overlap_start_utc = some s) ∧ ∃ e, resp.overlap_end_utc = some e)
    ∧ (resp.is_overlap = false →
      resp.overlap_start_utc = none ∧ resp.overlap_end_utc = none) := by
  obtain ⟨-, cs, -, rfl⟩ := find_overlap_ok h
  cases cs with
  | nil =>
    exact ⟨fun ht => absurd ht (by decide), fun _ => ⟨rfl, rfl⟩⟩
  | cons c rest =>
    obtain ⟨fs, fe⟩ := c
    rw [reduceSlots_cons]
    by_cases hlt : rest.foldl (fun acc c => max acc c.1) fs
        < rest.foldl (fun acc c => min acc c.2) fe
    · rw [if_pos hlt]
      exact ⟨fun _ => ⟨⟨_, rfl⟩, ⟨_, rfl⟩⟩, fun hf => Bool.noConfusion hf⟩
    · rw [if_neg hlt]
      exact ⟨fun ht => Bool.noConfusion ht, fun _ => ⟨rfl, rfl⟩⟩

/-- Witness for C9 at a successful overlapping request. -/
theorem C9_witness :
    ((⟨true, some 600, some 660⟩ : OverlapResponse).is_overlap = true →
      (∃ s, (⟨true, some 600, some 660⟩ : OverlapResponse).overlap_start_utc = some s)
      ∧ ∃ e, (⟨true, some 600, some 660⟩ : OverlapResponse).overlap_end_utc = some e)
    ∧ ((⟨true, some 600, some 660⟩ : OverlapResponse).is_overlap = false →
      (⟨true, some 600, some 660⟩ : OverlapResponse).overlap_start_utc = none
      ∧ (⟨true, some 600, some 660⟩ : OverlapResponse).overlap_end_utc = none) :=
  C9_bounds_present_iff_flag demoDB utcZone [⟨"UTC", 540, 660⟩, ⟨"UTC", 600, 720⟩]
    ⟨true, some 600, some 660⟩ (by rfl)

/-- Claim C10: whenever the response reports an overlap, the returned window
is a non-empty subset of every converted input interval: the bounds are
present, strictly ordered, and every entry's converted start is at most the
returned start while the returned end is at most its converted end. -/
theorem C10_overlap_subset_of_all (db : TZDatabase) (host : Zone)
    (av : List AvailabilityInput) (resp : OverlapResponse)
    (h : find_overlap db host av = .ok resp) (hb : resp.is_overlap = true) :
    ∃ s e, resp.overlap_start_utc = some s ∧ resp.overlap_end_utc = some e ∧ s < e ∧
      ∀ slot ∈ av, naiveToUTC host slot.start_local ≤ s
        ∧ e ≤ naiveToUTC host slot.end_local := by
  obtain ⟨-, cs, hcs, rfl⟩ := find_overlap_ok h
  have hmap := convertSlots_ok_map hcs
  cases cs with
  | nil => exact absurd hb (by decide)
  | cons c rest =>
    obtain ⟨fs, fe⟩ := c
    rw [reduceSlots_cons] at hb ⊢
    by_cases hlt : rest.foldl (fun acc c => max acc c.1) fs
        < rest.foldl (fun acc c => min acc c.2) fe
    · rw [if_pos hlt]
      refine ⟨_, _, rfl, rfl, hlt, ?_⟩
      intro slot hslot
      have hcmem : convertEntry host slot ∈ (fs, fe) :: rest := by
        rw [hmap]
        exact List.mem_map_of_mem (convertEntry host) hslot
      constructor
      · have hle : (convertEntry host slot).1
            ≤ rest.foldl (fun acc c => max acc c.1) fs := by
          rw [foldPair_max]
          rcases List.mem_cons.mp hcmem with heq | hm
          · rw [heq]
            exact le_foldMax fs (rest.map Prod.fst)
          · exact mem_le_foldMax fs (List.mem_map_of_mem Prod.fst hm)
        exact hle
      · have hle : rest.foldl (fun acc c => min acc c.2) fe
            ≤ (convertEntry host slot).2 := by
          rw [foldPair_min]
          rcases List.mem_cons.mp hcmem with heq | hm
          · rw [heq]
            exact foldMin_le fe (rest.map Prod.snd)
          · exact foldMin_le_mem fe (List.mem_map_of_mem Prod.snd hm)
        exact hle
    · rw [if_neg hlt] at hb
      exact absurd hb (by decide)

/-- Witness for C10 at the spec's partial-overlap example: `[09:00, 11:00)`
and `[10:00, 12:00)` UTC give the window `[10:00, 11:00)`, contained in both
inputs. -/
theorem C10_witness :
    ∃ s e, (⟨true, some 600, some 660⟩ : OverlapResponse).overlap_start_utc = some s
      ∧ (⟨true, some 600, some 660⟩ : OverlapResponse).overlap_end_utc = some e
      ∧ s < e
      ∧ ∀ slot ∈ ([⟨"UTC", 540, 660⟩, ⟨"UTC", 600, 720⟩] : List AvailabilityInput),
          naiveToUTC utcZone slot.start_local ≤ s ∧ e ≤ naiveToUTC utcZone slot.end_local :=
  C10_overlap_subset_of_all demoDB utcZone [⟨"UTC", 540, 660⟩, ⟨"UTC", 600, 720⟩]
    ⟨true, some 600, some 660⟩ (by rfl) (by rfl)
